import Mathlib

/-!
Shallow embedding of the `gemini-clone` chat client core:
the zustand state store (`src/client/store/index.ts`), its persistence
layer (custom `storage.getItem`/`setItem`), and the infinite-scroll
pagination simulator of the `MessageList` component.

Dates (`Date` values, millisecond epoch timestamps) are embedded as `Int`.
Strings stay `String`.  Environment inputs of the JavaScript runtime —
`crypto.randomUUID()`, `Date.now()`, `Math.random()` — become explicit
parameters of the operations that call them.
-/

namespace GeminiClone

/-- Message sender tag: exactly one of `"user"` or `"ai"`. -/
inductive Sender where
  | user
  | ai
  deriving DecidableEq, Repr

/-- `Message` interface of `src/client/store/index.ts`. -/
structure Message where
  id : String
  content : String
  sender : Sender
  timestamp : Int
  imageUrl : Option String := none
  deriving DecidableEq, Repr

/-- The argument of `addMessage`: a message without its `id`
(`Omit<Message, "id">`). -/
structure MessageData where
  content : String
  sender : Sender
  timestamp : Int
  imageUrl : Option String := none
  deriving DecidableEq, Repr

/-- `Chatroom` interface of `src/client/store/index.ts`. -/
structure Chatroom where
  id : String
  title : String
  messages : List Message
  createdAt : Int
  lastMessage : Option Int := none
  deriving DecidableEq, Repr

/-- `User` interface of `src/client/store/index.ts`. -/
structure User where
  id : String
  phone : String
  countryCode : String
  isAuthenticated : Bool
  deriving DecidableEq, Repr

/-- Theme flag: `"light" | "dark"`. -/
inductive Theme where
  | light
  | dark
  deriving DecidableEq, Repr

/-- The data fields of the `AppState` store (actions are modelled as
functions on this record). -/
structure AppState where
  user : Option User
  isAuthenticating : Bool
  otpSent : Bool
  chatrooms : List Chatroom
  activeChatroomId : Option String
  isTyping : Bool
  searchQuery : String
  isSidebarOpen : Bool
  theme : Theme
  deriving DecidableEq, Repr

/-- The initial state of the store (the object literal passed to
`create(persist(...))`). -/
def initialState : AppState where
  user := none
  isAuthenticating := false
  otpSent := false
  chatrooms := []
  activeChatroomId := none
  isTyping := false
  searchQuery := ""
  isSidebarOpen := true
  theme := .light

/-- `setUser`: replaces the session user. -/
def setUser (s : AppState) (u : Option User) : AppState :=
  { s with user := u }

/-- `setAuthenticating`. -/
def setAuthenticating (s : AppState) (b : Bool) : AppState :=
  { s with isAuthenticating := b }

/-- `setOtpSent`. -/
def setOtpSent (s : AppState) (b : Bool) : AppState :=
  { s with otpSent := b }

/-- `createChatroom(title?)`: builds a chatroom with a fresh id
(`crypto.randomUUID()`, passed in as `newId`) and creation time
(`new Date()`, passed in as `now`), titled `title || "New Chat"`
(the empty string is falsy in JavaScript), prepends it to the
collection, sets it active, and returns it. -/
def createChatroom (s : AppState) (title : Option String)
    (newId : String) (now : Int) : Chatroom × AppState :=
  let newChatroom : Chatroom :=
    { id := newId
      title := match title with
        | none => "New Chat"
        | some t => if t = "" then "New Chat" else t
      messages := []
      createdAt := now
      lastMessage := none }
  (newChatroom,
   { s with chatrooms := newChatroom :: s.chatrooms
            activeChatroomId := some newChatroom.id })

/-- `deleteChatroom(id)`: no-op when no chatroom has the id; otherwise
removes it, re-selects `remainingChatrooms[0]` (or `null`) when the
deleted room was active, and resets `isTyping`. -/
def deleteChatroom (s : AppState) (id : String) : AppState :=
  let chatroomExists := s.chatrooms.any (fun room => room.id = id)
  if !chatroomExists then s
  else
    let remainingChatrooms := s.chatrooms.filter (fun room => room.id ≠ id)
    let newActiveChatroomId :=
      if s.activeChatroomId = some id then
        match remainingChatrooms with
        | [] => none
        | first :: _ => some first.id
      else s.activeChatroomId
    { s with chatrooms := remainingChatrooms
             activeChatroomId := newActiveChatroomId
             isTyping := false }

/-- `setActiveChatroom(id)`: sets the active id unconditionally. -/
def setActiveChatroom (s : AppState) (id : String) : AppState :=
  { s with activeChatroomId := some id }

/-- The title `addMessage` derives for a chatroom whose message list was
empty: the content, truncated to its first 50 characters plus `"..."`
when longer than 50. -/
def derivedTitle (content : String) : String :=
  if content.length > 50 then content.take 50 ++ "..." else content

/-- The per-room update `addMessage` maps over the collection: on the
room whose id matches, append the message, set `lastMessage` to its
timestamp, and recompute the title when the room had no messages. -/
def addMessageToRoom (chatroomId : String) (message : Message)
    (room : Chatroom) : Chatroom :=
  if room.id = chatroomId then
    { room with
        messages := room.messages ++ [message]
        lastMessage := some message.timestamp
        title := if room.messages.length = 0 then derivedTitle message.content
                 else room.title }
  else room

/-- The message `addMessage` builds from its argument: the data plus a
fresh id (`{ ...messageData, id: crypto.randomUUID() }`). -/
def mkMessage (messageData : MessageData) (newId : String) : Message :=
  { id := newId
    content := messageData.content
    sender := messageData.sender
    timestamp := messageData.timestamp
    imageUrl := messageData.imageUrl }

/-- `addMessage(chatroomId, messageData)`: attaches a fresh id
(`crypto.randomUUID()`, passed in as `newId`) and maps the per-room
update over the chatroom collection. -/
def addMessage (s : AppState) (chatroomId : String) (messageData : MessageData)
    (newId : String) : AppState :=
  { s with chatrooms :=
      s.chatrooms.map (addMessageToRoom chatroomId (mkMessage messageData newId)) }

/-- `setTyping`. -/
def setTyping (s : AppState) (b : Bool) : AppState :=
  { s with isTyping := b }

/-- `setSearchQuery`. -/
def setSearchQuery (s : AppState) (q : String) : AppState :=
  { s with searchQuery := q }

/-- `setSidebarOpen`. -/
def setSidebarOpen (s : AppState) (b : Bool) : AppState :=
  { s with isSidebarOpen := b }

/-- `setTheme`. -/
def setTheme (s : AppState) (t : Theme) : AppState :=
  { s with theme := t }

/-- `getActiveChatroom()`: the chatroom matching the active id, or none. -/
def getActiveChatroom (s : AppState) : Option Chatroom :=
  s.chatrooms.find? (fun room => some room.id = s.activeChatroomId)

/-- The store actions, as one inductive so that preservation over every
action can be stated.  Environment inputs (`crypto.randomUUID()`,
`new Date()`) are payloads of the action that consumes them. -/
inductive Action where
  | setUser (u : Option User)
  | setAuthenticating (b : Bool)
  | setOtpSent (b : Bool)
  | createChatroom (title : Option String) (newId : String) (now : Int)
  | deleteChatroom (id : String)
  | setActiveChatroom (id : String)
  | addMessage (chatroomId : String) (m : MessageData) (newId : String)
  | setTyping (b : Bool)
  | setSearchQuery (q : String)
  | setSidebarOpen (b : Bool)
  | setTheme (t : Theme)
  deriving DecidableEq, Repr

/-- Dispatch of an `Action` to the corresponding store operation. -/
def applyAction (s : AppState) : Action → AppState
  | .setUser u => setUser s u
  | .setAuthenticating b => setAuthenticating s b
  | .setOtpSent b => setOtpSent s b
  | .createChatroom t i n => (createChatroom s t i n).2
  | .deleteChatroom i => deleteChatroom s i
  | .setActiveChatroom i => setActiveChatroom s i
  | .addMessage c m i => addMessage s c m i
  | .setTyping b => setTyping s b
  | .setSearchQuery q => setSearchQuery s q
  | .setSidebarOpen b => setSidebarOpen s b
  | .setTheme t => setTheme s t

/-- The referential invariant of §3: the active chatroom id is absent or
names a chatroom present in the collection. -/
def validActive (s : AppState) : Bool :=
  match s.activeChatroomId with
  | none => true
  | some i => s.chatrooms.any (fun room => room.id = i)

/-! Concrete fixtures used by witnesses and counterexamples. -/

/-- A sample empty chatroom with id `"a"`. -/
def roomA : Chatroom :=
  { id := "a", title := "Alpha", messages := [], createdAt := 5 }

/-- A sample empty chatroom with id `"b"`. -/
def roomB : Chatroom :=
  { id := "b", title := "Beta", messages := [], createdAt := 9 }

/-- A sample state holding `roomB` (most recent) and `roomA`, with `"b"`
active. -/
def stateAB : AppState :=
  { initialState with chatrooms := [roomB, roomA], activeChatroomId := some "b" }

/-! ## Helper lemmas -/

/-- Mapping a function that fixes every element of a list is the
identity on that list. -/
theorem map_fixes_of_forall {α : Type} (f : α → α) :
    ∀ (l : List α), (∀ x ∈ l, f x = x) → l.map f = l := by
  intro l hl
  induction l with
  | nil => rfl
  | cons x rest ih =>
      simp only [List.map_cons, List.cons.injEq]
      exact ⟨hl x (List.mem_cons_self x rest),
             ih fun y hy => hl y (List.mem_cons_of_mem x hy)⟩

/-! ## Theorems -/

/-- C1: deleting the chatroom whose id `d` equals the active id removes it
from the collection and re-selects the head of the most-recent-first
remaining collection (the most recently created remaining chatroom), or
clears the active id when no chatroom remains. -/
theorem deleteChatroom_active_reselects (s : AppState) (d : String)
    (hmem : s.chatrooms.any (fun room => room.id = d) = true)
    (hactive : s.activeChatroomId = some d) :
    (deleteChatroom s d).chatrooms = s.chatrooms.filter (fun room => room.id ≠ d) ∧
    (deleteChatroom s d).activeChatroomId =
      (match s.chatrooms.filter (fun room => room.id ≠ d) with
       | [] => none
       | first :: _ => some first.id) := by
  unfold deleteChatroom
  simp [hmem, hactive]

/-- C1 witness: in `stateAB`, `"b"` is present and active; deleting it
re-selects `roomA`. -/
theorem deleteChatroom_active_reselects_witness :
    stateAB.chatrooms.any (fun room => room.id = "b") = true ∧
    stateAB.activeChatroomId = some "b" ∧
    ((deleteChatroom stateAB "b").chatrooms
        = stateAB.chatrooms.filter (fun room => room.id ≠ "b") ∧
     (deleteChatroom stateAB "b").activeChatroomId =
       (match stateAB.chatrooms.filter (fun room => room.id ≠ "b") with
        | [] => none
        | first :: _ => some first.id)) :=
  ⟨by decide, by decide,
   deleteChatroom_active_reselects stateAB "b" (by decide) (by decide)⟩

/-- C2: when no chatroom has id `d`, `deleteChatroom d` returns the state
unchanged (same collection, same active id, same `isTyping`) and
`addMessage d` leaves the chatroom collection unchanged.  Both are total
functions of the embedding, so neither raises. -/
theorem missing_id_noop (s : AppState) (d : String)
    (habs : ∀ room ∈ s.chatrooms, room.id ≠ d)
    (m : MessageData) (newId : String) :
    deleteChatroom s d = s ∧ (addMessage s d m newId).chatrooms = s.chatrooms := by
  constructor
  · unfold deleteChatroom
    have hany : s.chatrooms.any (fun room => room.id = d) = false := by
      simp only [List.any_eq_false, decide_eq_true_eq]
      exact habs
    simp [hany]
  · show s.chatrooms.map (addMessageToRoom d (mkMessage m newId)) = s.chatrooms
    exact map_fixes_of_forall _ s.chatrooms fun room hr => by
      simp [addMessageToRoom, habs room hr]

/-- C2 witness: `"z"` matches no chatroom of `stateAB`; both operations
leave it unchanged. -/
theorem missing_id_noop_witness :
    (∀ room ∈ stateAB.chatrooms, room.id ≠ "z") ∧
    (deleteChatroom stateAB "z" = stateAB ∧
     (addMessage stateAB "z"
        { content := "hi", sender := .user, timestamp := 3 } "m1").chatrooms
       = stateAB.chatrooms) :=
  ⟨by decide,
   missing_id_noop stateAB "z" (by decide)
     { content := "hi", sender := .user, timestamp := 3 } "m1"⟩

/-- C3: `addMessage` to a chatroom whose message list is empty sets its
title to the message content when the content has at most 50 characters
and to the first 50 characters followed by `"..."` otherwise; any
subsequent `addMessage` to the now non-empty chatroom leaves the title
unchanged (and keeps the message list non-empty). -/
theorem addMessage_title_first_message (s : AppState) (cid : String)
    (m1 : MessageData) (id1 : String) (r : Chatroom)
    (hmem : r ∈ s.chatrooms) (hid : r.id = cid) (hemp : r.messages = []) :
    addMessageToRoom cid (mkMessage m1 id1) r ∈ (addMessage s cid m1 id1).chatrooms ∧
    (addMessageToRoom cid (mkMessage m1 id1) r).title =
      (if m1.content.length ≤ 50 then m1.content
       else m1.content.take 50 ++ "...") ∧
    (addMessageToRoom cid (mkMessage m1 id1) r).messages ≠ [] ∧
    (∀ (msg : Message) (later : Chatroom), later.messages ≠ [] →
      (addMessageToRoom cid msg later).title = later.title ∧
      (addMessageToRoom cid msg later).messages ≠ []) := by
  refine ⟨List.mem_map_of_mem _ hmem, ?_, ?_, ?_⟩
  · have key : (addMessageToRoom cid (mkMessage m1 id1) r).title =
        derivedTitle m1.content := by
      simp [addMessageToRoom, hid, hemp, mkMessage]
    rw [key]
    unfold derivedTitle
    rcases Nat.lt_or_ge 50 m1.content.length with h | h
    · rw [if_pos h, if_neg (by omega)]
    · rw [if_neg (by omega), if_pos (by omega)]
  · simp [addMessageToRoom, hid]
  · intro msg later hlater
    have hlen : later.messages.length ≠ 0 :=
      fun hc => hlater (List.length_eq_zero.mp hc)
    by_cases h : later.id = cid
    · constructor
      · simp [addMessageToRoom, h, hlen]
      · simp [addMessageToRoom, h]
    · constructor
      · simp [addMessageToRoom, h]
      · simpa [addMessageToRoom, h] using hlater

/-- C3 witness: the first message `"Hello"` to the empty `roomA` retitles
it `"Hello"`; later messages keep the title. -/
theorem addMessage_title_first_message_witness :
    roomA ∈ stateAB.chatrooms ∧ roomA.id = "a" ∧ roomA.messages = [] ∧
    (addMessageToRoom "a"
        (mkMessage { content := "Hello", sender := .user, timestamp := 7 } "m1") roomA
      ∈ (addMessage stateAB "a"
          { content := "Hello", sender := .user, timestamp := 7 } "m1").chatrooms ∧
     (addMessageToRoom "a"
        (mkMessage { content := "Hello", sender := .user, timestamp := 7 } "m1")
        roomA).title =
      (if ("Hello" : String).length ≤ 50 then "Hello"
       else ("Hello" : String).take 50 ++ "...") ∧
     (addMessageToRoom "a"
        (mkMessage { content := "Hello", sender := .user, timestamp := 7 } "m1")
        roomA).messages ≠ [] ∧
     (∀ (msg : Message) (later : Chatroom), later.messages ≠ [] →
       (addMessageToRoom "a" msg later).title = later.title ∧
       (addMessageToRoom "a" msg later).messages ≠ [])) :=
  ⟨by decide, rfl, rfl,
   addMessage_title_first_message stateAB "a"
     { content := "Hello", sender := .user, timestamp := 7 } "m1" roomA
     (by decide) rfl rfl⟩

/-- C9 counterexample: a chatroom created with the explicit title
`"My Room"` is retitled `"Hi there"` by its first message, because
`addMessage` recomputes the title whenever the message list was empty,
with no regard to whether a title was explicitly provided. -/
theorem createChatroom_explicit_title_overwritten :
    (createChatroom initialState (some "My Room") "r1" 0).1.title = "My Room" ∧
    ((addMessage (createChatroom initialState (some "My Room") "r1" 0).2 "r1"
        { content := "Hi there", sender := .user, timestamp := 1 }
        "m1").chatrooms.map Chatroom.title) = ["Hi there"] ∧
    ("Hi there" : String) ≠ "My Room" := by
  refine ⟨rfl, rfl, by decide⟩

/-- C9 amended: a chatroom created with an explicit non-empty title `t`
carries title `t` only until its first message: the first `addMessage`
overwrites the title with the content-derived title even though a title
was explicitly provided. -/
theorem createChatroom_title_until_first_message (s : AppState) (t : String)
    (ht : t ≠ "") (newId : String) (now : Int) (m : MessageData) (mid : String) :
    (createChatroom s (some t) newId now).1.title = t ∧
    (addMessageToRoom newId (mkMessage m mid)
        (createChatroom s (some t) newId now).1).title = derivedTitle m.content ∧
    addMessageToRoom newId (mkMessage m mid) (createChatroom s (some t) newId now).1
      ∈ (addMessage (createChatroom s (some t) newId now).2 newId m mid).chatrooms := by
  refine ⟨by simp [createChatroom, ht], ?_, ?_⟩
  · simp [createChatroom, addMessageToRoom, mkMessage]
  · exact List.mem_map_of_mem _ (by simp [createChatroom])

/-- C9 amended witness: concrete run with title `"My Room"` and first
message `"Hi there"`. -/
theorem createChatroom_title_until_first_message_witness :
    ("My Room" : String) ≠ "" ∧
    ((createChatroom initialState (some "My Room") "r1" 0).1.title = "My Room" ∧
     (addMessageToRoom "r1"
        (mkMessage { content := "Hi there", sender := .user, timestamp := 1 } "m1")
        (createChatroom initialState (some "My Room") "r1" 0).1).title
       = derivedTitle "Hi there" ∧
     addMessageToRoom "r1"
        (mkMessage { content := "Hi there", sender := .user, timestamp := 1 } "m1")
        (createChatroom initialState (some "My Room") "r1" 0).1
       ∈ (addMessage (createChatroom initialState (some "My Room") "r1" 0).2 "r1"
            { content := "Hi there", sender := .user, timestamp := 1 }
            "m1").chatrooms) :=
  ⟨by decide,
   createChatroom_title_until_first_message initialState "My Room" (by decide)
     "r1" 0 { content := "Hi there", sender := .user, timestamp := 1 } "m1"⟩

/-- C10: `createChatroom` with no title argument, and with the empty
string (falsy in JavaScript, so `title || "New Chat"` falls through),
titles the new chatroom `"New Chat"`; a newly created chatroom never has
an empty title. -/
theorem createChatroom_default_title (s : AppState) (newId : String)
    (now : Int) (t : Option String) :
    (createChatroom s none newId now).1.title = "New Chat" ∧
    (createChatroom s (some "") newId now).1.title = "New Chat" ∧
    (createChatroom s t newId now).1.title ≠ "" := by
  refine ⟨rfl, rfl, ?_⟩
  match t with
  | none => simp [createChatroom]
  | some t' =>
      by_cases h : t' = ""
      · simp [createChatroom, h]
      · simp [createChatroom, h]

/-- C4 counterexample: `setActiveChatroom` does not validate existence,
so one action applied to the (invariant-satisfying) initial state
already yields an active id that names no chatroom. -/
theorem setActiveChatroom_breaks_invariant :
    validActive initialState = true ∧
    applyAction initialState (.setActiveChatroom "x")
      = setActiveChatroom initialState "x" ∧
    validActive (applyAction initialState (.setActiveChatroom "x")) = false := by
  refine ⟨rfl, rfl, rfl⟩

/-- C4 amended: every store action preserves the invariant that the
active id is absent or names a chatroom in the collection, except
`setActiveChatroom`, which sets the id unconditionally and preserves the
invariant only when the given id already names a chatroom. -/
theorem validActive_preserved (s : AppState) (a : Action)
    (hs : validActive s = true)
    (hset : ∀ id, a = .setActiveChatroom id →
      s.chatrooms.any (fun room => room.id = id) = true) :
    validActive (applyAction s a) = true := by
  cases a with
  | setUser u => simpa [applyAction, setUser, validActive] using hs
  | setAuthenticating b => simpa [applyAction, setAuthenticating, validActive] using hs
  | setOtpSent b => simpa [applyAction, setOtpSent, validActive] using hs
  | setTyping b => simpa [applyAction, setTyping, validActive] using hs
  | setSearchQuery q => simpa [applyAction, setSearchQuery, validActive] using hs
  | setSidebarOpen b => simpa [applyAction, setSidebarOpen, validActive] using hs
  | setTheme t => simpa [applyAction, setTheme, validActive] using hs
  | createChatroom t i n => simp [applyAction, createChatroom, validActive]
  | setActiveChatroom i =>
      have := hset i rfl
      simpa [applyAction, setActiveChatroom, validActive] using this
  | addMessage c m i =>
      simp only [applyAction, addMessage, validActive] at hs ⊢
      cases hact : s.activeChatroomId with
      | none => rfl
      | some j =>
          rw [hact] at hs
          have hid_pres : ∀ room : Chatroom,
              (addMessageToRoom c (mkMessage m i) room).id = room.id := by
            intro room
            by_cases h : room.id = c <;> simp [addMessageToRoom, h]
          rcases List.any_eq_true.mp hs with ⟨room, hroom, hid⟩
          apply List.any_eq_true.mpr
          refine ⟨addMessageToRoom c (mkMessage m i) room,
            List.mem_map_of_mem _ hroom, ?_⟩
          simpa [hid_pres room] using hid
  | deleteChatroom d =>
      simp only [applyAction]
      unfold deleteChatroom
      by_cases hex : s.chatrooms.any (fun room => room.id = d) = true
      · simp only [hex, Bool.not_true, Bool.false_eq_true, if_false]
        by_cases hact : s.activeChatroomId = some d
        · simp only [validActive, hact, if_pos rfl]
          cases hrem : s.chatrooms.filter (fun room => room.id ≠ d) with
          | nil => rfl
          | cons first rest => simp
        · simp only [validActive, if_neg hact]
          cases hactv : s.activeChatroomId with
          | none => rfl
          | some j =>
              have hj : j ≠ d := fun h => hact (by rw [hactv, h])
              simp only [validActive, hactv] at hs
              rcases List.any_eq_true.mp hs with ⟨room, hroom, hid⟩
              apply List.any_eq_true.mpr
              refine ⟨room, List.mem_filter.mpr ⟨hroom, ?_⟩, hid⟩
              have : room.id = j := by simpa using hid
              simp [this, hj]
      · simp only [Bool.not_eq_true] at hex
        simp [hex, hs]

/-- C4 amended witness: `setActiveChatroom "a"` on `stateAB`, whose
collection contains a chatroom with id `"a"`, keeps the invariant. -/
theorem validActive_preserved_witness :
    validActive stateAB = true ∧
    validActive (applyAction stateAB (.setActiveChatroom "a")) = true :=
  ⟨by decide,
   validActive_preserved stateAB (.setActiveChatroom "a") (by decide)
     (fun id h => by cases h; decide)⟩

/-! ## Decimal string codec

Models of the JavaScript environment primitives the source leans on:
template-literal interpolation of numbers (`${page}`, `${Date.now()}`)
and the textual serialization of `Date` values with its inverse
`new Date(string)`.  A millisecond count is printed as its decimal
digits (sign-prefixed for `Int`), and parsed back. -/

/-- The character of the decimal digit `d` (ASCII `0` is 48). -/
def digitChar (d : Nat) : Char := Char.ofNat (48 + d)

/-- The decimal digit of a digit character; inverse of `digitChar`. -/
def charVal (c : Char) : Nat := c.toNat - 48

/-- Decimal representation of a natural number, most significant digit
first (model of JavaScript number-to-string on nonnegative values). -/
def natStr (n : Nat) : String :=
  if n = 0 then "0" else ⟨((Nat.digits 10 n).map digitChar).reverse⟩

/-- Decimal parse of a digit string; inverse of `natStr` on its image. -/
def decodeNatStr (s : String) : Nat :=
  Nat.ofDigits 10 ((s.data.map charVal).reverse)

theorem charVal_digitChar : ∀ d < 10, charVal (digitChar d) = d := by decide

theorem digitChar_ne_dash : ∀ d < 10, digitChar d ≠ '-' := by decide

theorem decodeNatStr_natStr (n : Nat) : decodeNatStr (natStr n) = n := by
  by_cases h : n = 0
  · subst h
    decide
  · unfold natStr decodeNatStr
    rw [if_neg h]
    show Nat.ofDigits 10
      (((((Nat.digits 10 n).map digitChar).reverse).map charVal).reverse) = n
    rw [List.map_reverse, List.reverse_reverse, List.map_map]
    have hfix : (Nat.digits 10 n).map (charVal ∘ digitChar) = Nat.digits 10 n := by
      apply map_fixes_of_forall
      intro d hd
      exact charVal_digitChar d (Nat.digits_lt_base (by norm_num) hd)
    rw [hfix, Nat.ofDigits_digits]

theorem natStr_injective : Function.Injective natStr := by
  intro a b h
  rw [← decodeNatStr_natStr a, ← decodeNatStr_natStr b, h]

theorem natStr_no_dash (n : Nat) : '-' ∉ (natStr n).data := by
  unfold natStr
  by_cases h : n = 0
  · rw [if_pos h]
    decide
  · rw [if_neg h]
    show '-' ∉ ((Nat.digits 10 n).map digitChar).reverse
    rw [List.mem_reverse]
    intro hmem
    rcases List.mem_map.mp hmem with ⟨d, hd, hEq⟩
    exact digitChar_ne_dash d (Nat.digits_lt_base (by norm_num) hd) hEq

/-- Textual serialization of a `Date` (millisecond count, possibly
negative): sign prefix plus decimal digits. -/
def intStr (n : Int) : String :=
  if n < 0 then "-" ++ natStr n.natAbs else natStr n.toNat

/-- Model of `new Date(string)` applied to a serialized date. -/
def decodeIntStr (s : String) : Int :=
  if s.data.head? = some '-' then -(decodeNatStr ⟨s.data.tail⟩) else decodeNatStr s

theorem decodeIntStr_intStr (n : Int) : decodeIntStr (intStr n) = n := by
  unfold intStr decodeIntStr
  by_cases h : n < 0
  · rw [if_pos h]
    have hdata : ("-" ++ natStr n.natAbs).data = '-' :: (natStr n.natAbs).data := by
      simp
    rw [if_pos (show ("-" ++ natStr n.natAbs).data.head? = some '-' by
      rw [hdata, List.head?_cons])]
    rw [hdata]
    show -(decodeNatStr ⟨(natStr n.natAbs).data⟩) = n
    have hmk : (⟨(natStr n.natAbs).data⟩ : String) = natStr n.natAbs := rfl
    rw [hmk, decodeNatStr_natStr]
    omega
  · rw [if_neg h]
    have hhead : (natStr n.toNat).data.head? ≠ some '-' := by
      intro hc
      cases hd : (natStr n.toNat).data with
      | nil => rw [hd] at hc; exact Option.noConfusion hc
      | cons c rest =>
          rw [hd] at hc
          have : c = '-' := by simpa using hc
          exact natStr_no_dash n.toNat (by rw [hd, this]; exact List.mem_cons_self _ _)
    rw [if_neg hhead, decodeNatStr_natStr]
    omega

/-- Two dash-terminated fields over dash-free prefixes coincide exactly
when prefix and remainder coincide. -/
theorem dashFree_append_cancel :
    ∀ (a a' r r' : List Char), '-' ∉ a → '-' ∉ a' →
      a ++ '-' :: r = a' ++ '-' :: r' → a = a' ∧ r = r' := by
  intro a
  induction a with
  | nil =>
      intro a' r r' _ ha' h
      cases a' with
      | nil => simpa using h
      | cons c t =>
          simp only [List.nil_append, List.cons_append, List.cons.injEq] at h
          exact absurd (h.1 ▸ List.mem_cons_self c t) ha'
  | cons c t ih =>
      intro a' r r' ha ha' h
      cases a' with
      | nil =>
          simp only [List.cons_append, List.nil_append, List.cons.injEq] at h
          exact absurd (h.1 ▸ List.mem_cons_self c t) (h.1 ▸ ha)
      | cons c' t' =>
          simp only [List.cons_append, List.cons.injEq] at h
          obtain ⟨hc, htail⟩ := h
          have hta : '-' ∉ t := fun hm => ha (List.mem_cons_of_mem c hm)
          have hta' : '-' ∉ t' := fun hm => ha' (List.mem_cons_of_mem c' hm)
          obtain ⟨h1, h2⟩ := ih t' r r' hta hta' htail
          exact ⟨by rw [hc, h1], h2⟩

/-- The synthetic message id built by `generateDummyMessages`:
`dummy-${chatroomId}-page${page}-${messageIndex}-${Date.now()}-${random}`. -/
def dummyId (chatroomId : String) (page messageIndex : Nat) (now : Int)
    (rand : String) : String :=
  "dummy-" ++ chatroomId ++ "-page" ++ natStr page ++ "-" ++ natStr messageIndex
    ++ "-" ++ intStr now ++ "-" ++ rand

/-- Within one chatroom, a synthetic id determines its page and message
index, whatever instant and randomness each generation observed. -/
theorem dummyId_inj (c : String) {p i p' i' : Nat} {now now' : Int}
    {r r' : String} (h : dummyId c p i now r = dummyId c p' i' now' r') :
    p = p' ∧ i = i' := by
  have hdash : ("-" : String).data = ['-'] := rfl
  have hd := congrArg String.data h
  simp only [dummyId, String.data_append, hdash, List.singleton_append,
    List.append_assoc] at hd
  have hd4 := List.append_cancel_left (List.append_cancel_left
    (List.append_cancel_left hd))
  obtain ⟨hp, hrest⟩ := dashFree_append_cancel _ _ _ _
    (natStr_no_dash p) (natStr_no_dash p') hd4
  obtain ⟨hi, -⟩ := dashFree_append_cancel _ _ _ _
    (natStr_no_dash i) (natStr_no_dash i') hrest
  exact ⟨natStr_injective (String.ext hp), natStr_injective (String.ext hi)⟩

/-! ## Pagination simulator (`MessageList` component)

The hooks `loadingOlder`, `hasMoreMessages`, `page`, `olderMessages`
become a record; the reset effect and `loadOlderMessages` become
functions on it.  A load request and its timer completion are modelled
as one atomic step (single-threaded event loop; the completion closes
over the state captured at request time). -/

/-- `MESSAGES_PER_PAGE` of the `MessageList` component. -/
def MESSAGES_PER_PAGE : Nat := 20

/-- The message the `generateDummyMessages` loop pushes at loop index
`i` of page `page` (global message index `page*20 + i`): every third
global index is attributed to the user, timestamps run one minute apart
into the past from `now` (`Date.now()`). -/
def dummyMessage (chatroomId : String) (page : Nat) (now : Int)
    (rand : Nat → String) (i : Nat) : Message :=
  let messageIndex := page * MESSAGES_PER_PAGE + i
  { id := dummyId chatroomId page messageIndex now (rand i)
    content :=
      if messageIndex % 3 = 0 then
        "This is user message #" ++ natStr (messageIndex + 1) ++
          ". Here\x27s a question or statement from the user."
      else
        "This is AI response #" ++ natStr (messageIndex + 1) ++
          ". Here\x27s a helpful response from Gemini with some detailed information."
    sender := if messageIndex % 3 = 0 then Sender.user else Sender.ai
    timestamp := now - (messageIndex + 1) * 60000 }

/-- `generateDummyMessages(chatroomId, page)`: pushes loop indices
`0..19` and reverses, so the page is oldest-first.  `Date.now()` and the
per-iteration `Math.random()` id suffix become `now` and `rand`. -/
def generateDummyMessages (chatroomId : String) (page : Nat) (now : Int)
    (rand : Nat → String) : List Message :=
  ((List.range MESSAGES_PER_PAGE).map
    (dummyMessage chatroomId page now rand)).reverse

/-- The local view state of `MessageList`. -/
structure ViewState where
  loadingOlder : Bool
  hasMoreMessages : Bool
  page : Nat
  olderMessages : List Message
  deriving DecidableEq, Repr

/-- The reset effect when the viewed chatroom changes: clear synthetic
pages, return to page 0, and offer history only when the chatroom
already has messages. -/
def resetView (messages : List Message) : ViewState :=
  { loadingOlder := false
    hasMoreMessages := messages.length > 0
    page := 0
    olderMessages := [] }

/-- Whether a `loadOlderMessages` call reaches `setLoadingOlder(true)`
and schedules the timer (it returns early when already loading, when no
more history is offered, when the chatroom has no messages, or past the
10-page safety limit). -/
def schedulesLoad (vs : ViewState) (messages : List Message) : Bool :=
  !vs.loadingOlder && vs.hasMoreMessages && !(messages.length = 0)
    && vs.page < 10

/-- One `loadOlderMessages` request, atomically with its timer
completion: guards, then generates the page, drops entries whose ids
collide with accumulated ones, prepends, and advances the page. -/
def loadStep (chatroomId : String) (messages : List Message) (now : Int)
    (rand : Nat → String) (vs : ViewState) : ViewState :=
  if vs.loadingOlder || !vs.hasMoreMessages then vs
  else if messages.length = 0 then { vs with hasMoreMessages := false }
  else if vs.page ≥ 10 then { vs with hasMoreMessages := false }
  else
    let newMessages := generateDummyMessages chatroomId vs.page now rand
    let hasMore' :=
      if newMessages.length < MESSAGES_PER_PAGE ∨ vs.page ≥ 9 then false
      else vs.hasMoreMessages
    let existingIds := vs.olderMessages.map Message.id
    let filteredNewMessages :=
      newMessages.filter fun msg => !existingIds.contains msg.id
    { loadingOlder := false
      hasMoreMessages := hasMore'
      page := vs.page + 1
      olderMessages := filteredNewMessages ++ vs.olderMessages }

/-- The view state after `k` load requests on a freshly entered chatroom
view; request `k` observes environment inputs `env k`. -/
def runLoads (chatroomId : String) (messages : List Message)
    (env : Nat → Int × (Nat → String)) : Nat → ViewState
  | 0 => resetView messages
  | k + 1 =>
      loadStep chatroomId messages (env k).1 (env k).2
        (runLoads chatroomId messages env k)

theorem generateDummyMessages_length (c : String) (p : Nat) (now : Int)
    (rand : Nat → String) :
    (generateDummyMessages c p now rand).length = MESSAGES_PER_PAGE := by
  simp [generateDummyMessages]

theorem generateDummyMessages_mem_id {c : String} {p : Nat} {now : Int}
    {rand : Nat → String} {m : Message}
    (hm : m ∈ generateDummyMessages c p now rand) :
    ∃ i, i < MESSAGES_PER_PAGE ∧
      m.id = dummyId c p (p * MESSAGES_PER_PAGE + i) now (rand i) := by
  rw [generateDummyMessages, List.mem_reverse] at hm
  rcases List.mem_map.mp hm with ⟨i, hi, hEq⟩
  exact ⟨i, List.mem_range.mp hi, by rw [← hEq]; rfl⟩

/-- Invariant of repeated loads on a chatroom with at least one real
message: after `k ≤ 10` requests the view is idle at page `k`, holds
`20*k` accumulated synthetic messages whose ids decode to message
indices below `20*k`, and offers more history exactly while `k < 10`. -/
theorem runLoads_inv (c : String) (msgs : List Message)
    (env : Nat → Int × (Nat → String)) (hne : msgs ≠ []) :
    ∀ k, k ≤ 10 →
      (runLoads c msgs env k).loadingOlder = false ∧
      (runLoads c msgs env k).page = k ∧
      (runLoads c msgs env k).hasMoreMessages = decide (k < 10) ∧
      (runLoads c msgs env k).olderMessages.length = MESSAGES_PER_PAGE * k ∧
      (∀ m ∈ (runLoads c msgs env k).olderMessages, ∃ p idx now r,
        idx < MESSAGES_PER_PAGE * k ∧ m.id = dummyId c p idx now r) := by
  intro k
  induction k with
  | zero =>
      intro _
      refine ⟨rfl, rfl, ?_, rfl, by simp [runLoads, resetView]⟩
      show decide (msgs.length > 0) = true
      simp [List.length_pos, hne]
  | succ k ih =>
      intro hk
      obtain ⟨hload, hpage, hmore, hlen, hids⟩ := ih (by omega)
      have hmsgs : ¬(msgs.length = 0) := by
        simpa [List.length_eq_zero] using hne
      have hmoreT : (runLoads c msgs env k).hasMoreMessages = true := by
        rw [hmore]
        simp only [decide_eq_true_eq]
        omega
      have hstep : runLoads c msgs env (k + 1)
          = loadStep c msgs (env k).1 (env k).2 (runLoads c msgs env k) := rfl
      have hkeep : ∀ m ∈ generateDummyMessages c (runLoads c msgs env k).page
          (env k).1 (env k).2,
          (((runLoads c msgs env k).olderMessages.map Message.id).contains m.id)
            = false := by
        intro m hm
        rcases generateDummyMessages_mem_id hm with ⟨i, hi, hid⟩
        by_contra hcon
        rw [Bool.not_eq_false, List.contains_iff_exists_mem_beq] at hcon
        rcases hcon with ⟨oldId, holdMem, hbeq⟩
        rcases List.mem_map.mp holdMem with ⟨mOld, hmOld, hOldId⟩
        rcases hids mOld hmOld with ⟨p', idx', now', r', hidx', hid'⟩
        have hEq : m.id = mOld.id := by
          have hmo := eq_of_beq hbeq
          rw [hOldId]
          exact hmo
        rw [hid, hpage] at hEq
        rw [hid'] at hEq
        obtain ⟨-, hIdxEq⟩ := dummyId_inj c hEq
        have h20 : MESSAGES_PER_PAGE = 20 := rfl
        rw [h20] at hIdxEq hidx' hi
        omega
      have hfilter :
          (generateDummyMessages c (runLoads c msgs env k).page
              (env k).1 (env k).2).filter
            (fun msg =>
              !(((runLoads c msgs env k).olderMessages.map Message.id).contains
                msg.id))
          = generateDummyMessages c (runLoads c msgs env k).page
              (env k).1 (env k).2 := by
        apply List.filter_eq_self.mpr
        intro m hm
        rw [hkeep m hm]
        rfl
      rw [hstep]
      unfold loadStep
      rw [hload, hmoreT]
      rw [if_neg (by simp)]
      rw [if_neg hmsgs]
      rw [if_neg (by rw [hpage]; omega)]
      simp only [generateDummyMessages_length, hfilter]
      refine ⟨trivial, by rw [hpage], ?_, ?_, ?_⟩
      · by_cases h9 : k ≥ 9
        · have hk9 : k = 9 := by omega
          rw [if_pos (Or.inr (by rw [hpage]; omega))]
          simp [hk9]
        · have hcond : ¬(MESSAGES_PER_PAGE < MESSAGES_PER_PAGE ∨
              (runLoads c msgs env k).page ≥ 9) := by
            rw [hpage]
            push_neg
            exact ⟨le_refl _, by omega⟩
          rw [if_neg hcond]
          have h10 : k + 1 < 10 := by omega
          simp [h10]
      · rw [List.length_append, hlen, generateDummyMessages_length]
        have h20 : MESSAGES_PER_PAGE = 20 := rfl
        rw [h20]
        omega
      · intro m hm
        rcases List.mem_append.mp hm with hnew | hold
        · rcases generateDummyMessages_mem_id hnew with ⟨i, hi, hid⟩
          refine ⟨(runLoads c msgs env k).page,
            (runLoads c msgs env k).page * MESSAGES_PER_PAGE + i,
            (env k).1, (env k).2 i, ?_, hid⟩
          have h20 : MESSAGES_PER_PAGE = 20 := rfl
          rw [hpage, h20]
          rw [h20] at hi
          omega
        · rcases hids m hold with ⟨p', idx', now', r', hidx', hid'⟩
          refine ⟨p', idx', now', r', ?_, hid'⟩
          have h20 : MESSAGES_PER_PAGE = 20 := rfl
          rw [h20] at hidx' ⊢
          omega

/-- Position `j` of a generated page holds the loop element `19 - j`
(the page is the reverse of the pushed list). -/
theorem generateDummyMessages_getElem (c : String) (p : Nat) (now : Int)
    (rand : Nat → String) (j : Nat) (hj : j < 20) :
    (generateDummyMessages c p now rand)[j]? =
      some (dummyMessage c p now rand (19 - j)) := by
  rw [generateDummyMessages]
  have h20 : MESSAGES_PER_PAGE = 20 := rfl
  rw [h20]
  rw [List.getElem?_reverse (by simp; omega)]
  have hlen : ((List.range 20).map (dummyMessage c p now rand)).length = 20 := by
    simp
  rw [hlen, List.getElem?_map, List.getElem?_range (by omega : 20 - 1 - j < 20)]
  rfl

/-- A load request is a no-op once no more history is offered. -/
theorem loadStep_noMore (c : String) (msgs : List Message) (now : Int)
    (rand : Nat → String) (vs : ViewState) (h : vs.hasMoreMessages = false) :
    loadStep c msgs now rand vs = vs := by
  simp [loadStep, h]

/-- A sample real message. -/
def msgW : Message :=
  { id := "m0", content := "hello", sender := .user, timestamp := 1 }

/-- C7: on a chatroom view with at least one real message, repeated load
requests accumulate exactly 20 messages per page for 10 pages (200 in
total), after which "has more" is false and every further request leaves
the view unchanged; on a chatroom with no real messages the fresh view
offers no history, schedules no load, and never changes. -/
theorem pagination_ten_pages_exhausts (c : String) (msgs : List Message)
    (env : Nat → Int × (Nat → String)) :
    (msgs ≠ [] →
      (∀ k, k ≤ 10 →
        (runLoads c msgs env k).olderMessages.length = 20 * k ∧
        (runLoads c msgs env k).hasMoreMessages = decide (k < 10)) ∧
      (runLoads c msgs env 10).olderMessages.length = 200 ∧
      (runLoads c msgs env 10).hasMoreMessages = false ∧
      (∀ k, 10 ≤ k → runLoads c msgs env k = runLoads c msgs env 10)) ∧
    (msgs = [] →
      (runLoads c msgs env 0).hasMoreMessages = false ∧
      schedulesLoad (runLoads c msgs env 0) msgs = false ∧
      (∀ k, runLoads c msgs env k = runLoads c msgs env 0)) := by
  constructor
  · intro hne
    have hinv := runLoads_inv c msgs env hne
    have h20 : MESSAGES_PER_PAGE = 20 := rfl
    have hm10 : (runLoads c msgs env 10).hasMoreMessages = false := by
      obtain ⟨-, -, hm, -, -⟩ := hinv 10 (le_refl _)
      rw [hm]
      rfl
    refine ⟨?_, ?_, hm10, ?_⟩
    · intro k hk
      obtain ⟨-, -, hm, hl, -⟩ := hinv k hk
      exact ⟨by rw [hl, h20], hm⟩
    · obtain ⟨-, -, -, hl, -⟩ := hinv 10 (le_refl _)
      rw [hl, h20]
    · intro k hk
      obtain ⟨j, rfl⟩ : ∃ j, k = 10 + j := ⟨k - 10, by omega⟩
      clear hk
      induction j with
      | zero => rfl
      | succ j ihj =>
          have hstep : runLoads c msgs env (10 + (j + 1))
              = loadStep c msgs (env (10 + j)).1 (env (10 + j)).2
                  (runLoads c msgs env (10 + j)) := rfl
          rw [hstep, ihj, loadStep_noMore _ _ _ _ _ hm10]
  · intro hempty
    subst hempty
    refine ⟨rfl, rfl, ?_⟩
    intro k
    induction k with
    | zero => rfl
    | succ k ihk =>
        have hstep : runLoads c [] env (k + 1)
            = loadStep c [] (env k).1 (env k).2 (runLoads c [] env k) := rfl
        rw [hstep, ihk, loadStep_noMore _ _ _ _ _ rfl]

/-- C7 witness: one real message; the environment observes time 0 and
randomness `"r"` at every request. -/
theorem pagination_ten_pages_exhausts_witness :
    ([msgW] : List Message) ≠ [] ∧
    ((∀ k, k ≤ 10 →
        (runLoads "c" [msgW] (fun _ => (0, fun _ => "r")) k).olderMessages.length
          = 20 * k ∧
        (runLoads "c" [msgW] (fun _ => (0, fun _ => "r")) k).hasMoreMessages
          = decide (k < 10)) ∧
     (runLoads "c" [msgW] (fun _ => (0, fun _ => "r")) 10).olderMessages.length
       = 200 ∧
     (runLoads "c" [msgW] (fun _ => (0, fun _ => "r")) 10).hasMoreMessages
       = false ∧
     (∀ k, 10 ≤ k → runLoads "c" [msgW] (fun _ => (0, fun _ => "r")) k
       = runLoads "c" [msgW] (fun _ => (0, fun _ => "r")) 10)) :=
  ⟨by decide,
   (pagination_ten_pages_exhausts "c" [msgW] (fun _ => (0, fun _ => "r"))).1
     (by decide)⟩

/-- C8 counterexample: the generator embeds `Date.now()` (and a random
suffix) in every message, so two generations of the same chatroom and
page at different instants yield different messages — already their
first timestamps differ. -/
theorem generateDummyMessages_time_dependent :
    generateDummyMessages "c" 0 0 (fun _ => "r")
      ≠ generateDummyMessages "c" 0 60000 (fun _ => "r") := by
  intro h
  have e1 := generateDummyMessages_getElem "c" 0 0 (fun _ => "r") 0 (by omega)
  have e2 := generateDummyMessages_getElem "c" 0 60000 (fun _ => "r") 0 (by omega)
  rw [h, e2] at e1
  have hts := congrArg Message.timestamp (Option.some.inj e1)
  simp [dummyMessage, MESSAGES_PER_PAGE] at hts

/-- C8 amended: for fixed environment inputs (generation instant and
randomness), the generator yields a deterministic page of exactly 20
messages, oldest-first: position `j` carries global index
`p*20 + (19-j)`, is from the user exactly when that index is divisible
by 3, and timestamps step one minute per position, receding into the
past; generations at different instants differ (see the
counterexample). -/
theorem generateDummyMessages_page_spec (c : String) (p : Nat) (now : Int)
    (rand : Nat → String) :
    (generateDummyMessages c p now rand).length = 20 ∧
    (∀ j, j < 20 →
      ∃ msg, (generateDummyMessages c p now rand)[j]? = some msg ∧
        msg.sender = (if (p * 20 + (19 - j)) % 3 = 0 then Sender.user
                      else Sender.ai) ∧
        msg.timestamp = now - ((p * 20 + (20 - j) : Nat) : Int) * 60000 ∧
        msg.id = dummyId c p (p * 20 + (19 - j)) now (rand (19 - j))) ∧
    (∀ j m1 m2,
      (generateDummyMessages c p now rand)[j]? = some m1 →
      (generateDummyMessages c p now rand)[j + 1]? = some m2 →
      m2.timestamp = m1.timestamp + 60000) := by
  have hlen : (generateDummyMessages c p now rand).length = 20 :=
    generateDummyMessages_length c p now rand
  refine ⟨hlen, ?_, ?_⟩
  · intro j hj
    refine ⟨dummyMessage c p now rand (19 - j),
      generateDummyMessages_getElem c p now rand j hj, ?_, ?_, rfl⟩
    · show (if (p * MESSAGES_PER_PAGE + (19 - j)) % 3 = 0 then Sender.user
            else Sender.ai) = _
      rfl
    · show now - ((p * MESSAGES_PER_PAGE + (19 - j) + 1 : Nat) : Int) * 60000 = _
      have h20 : MESSAGES_PER_PAGE = 20 := rfl
      rw [h20]
      have harith : p * 20 + (19 - j) + 1 = p * 20 + (20 - j) := by omega
      rw [harith]
  · intro j m1 m2 h1 h2
    have hj1 : j + 1 < 20 := by
      by_contra hge
      rw [List.getElem?_eq_none (by omega : (generateDummyMessages c p now rand).length ≤ j + 1)] at h2
      exact Option.noConfusion h2
    have hj : j < 20 := by omega
    rw [generateDummyMessages_getElem c p now rand j hj] at h1
    rw [generateDummyMessages_getElem c p now rand (j + 1) hj1] at h2
    have hm1 := Option.some.inj h1
    have hm2 := Option.some.inj h2
    rw [← hm1, ← hm2]
    simp only [dummyMessage, MESSAGES_PER_PAGE]
    omega

/-- C8 amended witness: page 1 at instant 5; position 0 carries global
index 39 (an AI message) with timestamp 40 minutes in the past. -/
theorem generateDummyMessages_page_spec_witness :
    (0 : Nat) < 20 ∧
    ∃ msg, (generateDummyMessages "c" 1 5 (fun _ => "r"))[0]? = some msg ∧
      msg.sender = (if (1 * 20 + (19 - 0)) % 3 = 0 then Sender.user
                    else Sender.ai) ∧
      msg.timestamp = 5 - ((1 * 20 + (20 - 0) : Nat) : Int) * 60000 ∧
      msg.id = dummyId "c" 1 (1 * 20 + (19 - 0)) 5
        ((fun _ : Nat => "r") (19 - 0)) :=
  ⟨by decide,
   (generateDummyMessages_page_spec "c" 1 5 (fun _ => "r")).2.1 0 (by decide)⟩

/-! ## Persistence layer (the custom `storage` of the persist middleware)

`JSON.stringify` / `JSON.parse` are platform primitives; a stored blob is
modelled as either the serialization of a JSON tree (`JSON.stringify`
output always parses back to an equal tree) or text that `JSON.parse`
rejects.  The store's own code — the `null` check, the `try/catch`, and
the date revival of `parsed.state.chatrooms` — is embedded from source. -/

/-- JSON trees (what a successful `JSON.parse` yields). -/
inductive Json where
  | null
  | bool (b : Bool)
  | num (n : Int)
  | str (s : String)
  | arr (xs : List Json)
  | obj (fields : List (String × Json))

/-- JavaScript runtime values of the persisted/revived state: JSON
values plus `Date` objects and `undefined`. -/
inductive JsValue where
  | null
  | bool (b : Bool)
  | num (n : Int)
  | str (s : String)
  | date (ms : Int)
  | undef
  | arr (xs : List JsValue)
  | obj (fields : List (String × JsValue))

mutual

/-- Model of `JSON.stringify` on a runtime value: `Date`s serialize to
their textual date representation, object properties holding `undefined`
are dropped, `undefined` inside arrays becomes `null`. -/
def stringifyJs : JsValue → Json
  | .null => .null
  | .bool b => .bool b
  | .num n => .num n
  | .str s => .str s
  | .date ms => .str (intStr ms)
  | .undef => .null
  | .arr xs => .arr (stringifyJsList xs)
  | .obj fs => .obj (stringifyJsFields fs)

/-- `stringifyJs` on array elements. -/
def stringifyJsList : List JsValue → List Json
  | [] => []
  | x :: xs => stringifyJs x :: stringifyJsList xs

/-- `stringifyJs` on object properties: `undefined`-valued ones are
dropped. -/
def stringifyJsFields : List (String × JsValue) → List (String × Json)
  | [] => []
  | (_, .undef) :: fs => stringifyJsFields fs
  | (k, v) :: fs => (k, stringifyJs v) :: stringifyJsFields fs

end

mutual

/-- The plain injection of a parsed JSON tree into runtime values. -/
def jsOfJson : Json → JsValue
  | .null => .null
  | .bool b => .bool b
  | .num n => .num n
  | .str s => .str s
  | .arr xs => .arr (jsOfJsonList xs)
  | .obj fs => .obj (jsOfJsonFields fs)

/-- `jsOfJson` on array elements. -/
def jsOfJsonList : List Json → List JsValue
  | [] => []
  | x :: xs => jsOfJson x :: jsOfJsonList xs

/-- `jsOfJson` on object properties. -/
def jsOfJsonFields : List (String × Json) → List (String × JsValue)
  | [] => []
  | (k, v) :: fs => (k, jsOfJson v) :: jsOfJsonFields fs

end

/-- JavaScript truthiness of a property access on a parsed JSON object
(`room.lastMessage ?`, `parsed.state?.chatrooms`): absent, `null`,
`false`, `0` and `""` are falsy. -/
def truthy : Option Json → Bool
  | none => false
  | some .null => false
  | some (.bool b) => b
  | some (.num n) => !(n = 0 : Bool)
  | some (.str s) => !(s = "" : Bool)
  | some (.arr _) => true
  | some (.obj _) => true

/-- Model of `new Date(x)` on a property of the parsed blob: a textual
date parses back to its millisecond value; a number is taken as
milliseconds; anything else gives an `Invalid Date` (collapsed to
epoch — unreachable for data the store itself persisted). -/
def newDateOfJson : Option Json → JsValue
  | some (.str s) => .date (decodeIntStr s)
  | some (.num n) => .date n
  | _ => .date 0

/-- Property update of a spread-with-overrides object literal
(`{...o, k: v}`): an existing key keeps its position, a new key is
appended. -/
def setJsField : List (String × JsValue) → String → JsValue →
    List (String × JsValue)
  | [], k, v => [(k, v)]
  | (k', v') :: fs, k, v =>
      if k' = k then (k, v) :: fs else (k', v') :: setJsField fs k v

/-- Property lookup on a runtime object value. -/
def JsValue.getField : JsValue → String → Option JsValue
  | .obj fs, k => fs.lookup k
  | _, _ => none

/-- `(msg) => ({ ...msg, timestamp: new Date(msg.timestamp) })`. -/
def reviveMsg (m : Json) : JsValue :=
  let fs := match m with | .obj l => l | _ => []
  .obj (setJsField (jsOfJsonFields fs) "timestamp"
    (newDateOfJson (fs.lookup "timestamp")))

/-- `room.messages?.map(reviveMsg) || []`: absent or `null` yields `[]`;
an array maps; any other value makes the `.map` call raise a
`TypeError` (propagated as `none`, caught by `getItem`). -/
def reviveMessages : Option Json → Option JsValue
  | none => some (.arr [])
  | some .null => some (.arr [])
  | some (.arr ms) => some (.arr (ms.map reviveMsg))
  | some _ => none

/-- `(room) => ({ ...room, createdAt: new Date(room.createdAt),
lastMessage: room.lastMessage ? new Date(room.lastMessage) : undefined,
messages: room.messages?.map(...) || [] })`. -/
def reviveRoom (room : Json) : Option JsValue :=
  let fs := match room with | .obj l => l | _ => []
  match reviveMessages (fs.lookup "messages") with
  | none => none
  | some msgs =>
      some (.obj (setJsField (setJsField (setJsField (jsOfJsonFields fs)
        "createdAt" (newDateOfJson (fs.lookup "createdAt")))
        "lastMessage"
          (if truthy (fs.lookup "lastMessage") then
            newDateOfJson (fs.lookup "lastMessage")
          else JsValue.undef))
        "messages" msgs))

/-- `reviveRoom` mapped over the chatrooms array; a raising room
propagates. -/
def reviveRooms : List Json → Option (List JsValue)
  | [] => some []
  | r :: rs =>
      match reviveRoom r, reviveRooms rs with
      | some v, some vs => some (v :: vs)
      | _, _ => none

/-- The body of `storage.getItem` after a successful parse: when
`parsed.state?.chatrooms` is truthy the chatrooms are mapped through the
date revival (a truthy non-array raises inside the `try`, yielding
`none`); otherwise the parsed value is returned as is. -/
def reviveParsed (parsed : Json) : Option JsValue :=
  match parsed with
  | .obj fs =>
      match fs.lookup "state" with
      | some (.obj sfs) =>
          (match sfs.lookup "chatrooms" with
           | some (.arr rooms) =>
               match reviveRooms rooms with
               | none => none
               | some revived =>
                   some (.obj (setJsField (jsOfJsonFields fs) "state"
                     (.obj (setJsField (jsOfJsonFields sfs) "chatrooms"
                       (.arr revived)))))
           | some v => if truthy (some v) then none else some (jsOfJson parsed)
           | none => some (jsOfJson parsed))
      | _ => some (jsOfJson parsed)
  | _ => some (jsOfJson parsed)

/-- A `localStorage` slot content. -/
inductive Blob where
  | wellFormed (v : Json)
  | malformed (text : String)

/-- The browser `localStorage`, one optional blob per key. -/
def LocalStorage := String → Option Blob

/-- `storage.getItem(name)`: `null` for an absent item, `null` when
`JSON.parse` throws (the `catch`), otherwise the parsed value with
revived dates. -/
def storageGetItem (ls : LocalStorage) (name : String) : Option JsValue :=
  match ls name with
  | none => none
  | some (.malformed _) => none
  | some (.wellFormed parsed) => reviveParsed parsed

/-- `storage.setItem(name, value)`: stores `JSON.stringify(value)`. -/
def storageSetItem (ls : LocalStorage) (name : String) (value : JsValue) :
    LocalStorage :=
  fun n => if n = name then some (.wellFormed (stringifyJs value)) else ls n

/-- The persisted subset of the state selected by `partialize`. -/
structure PersistedState where
  user : Option User
  chatrooms : List Chatroom
  activeChatroomId : Option String
  theme : Theme

/-- `partialize(state)`. -/
def partialize (s : AppState) : PersistedState :=
  { user := s.user
    chatrooms := s.chatrooms
    activeChatroomId := s.activeChatroomId
    theme := s.theme }

/-- The sender tag as the runtime string value. -/
def jsOfSender : Sender → JsValue
  | .user => .str "user"
  | .ai => .str "ai"

/-- The theme as the runtime string value. -/
def jsOfTheme : Theme → JsValue
  | .light => .str "light"
  | .dark => .str "dark"

/-- The live runtime value of a user object. -/
def jsOfUser (u : User) : JsValue :=
  .obj [("id", .str u.id), ("phone", .str u.phone),
        ("countryCode", .str u.countryCode),
        ("isAuthenticated", .bool u.isAuthenticated)]

/-- `user` is `User | null`. -/
def jsOfOptUser : Option User → JsValue
  | none => .null
  | some u => jsOfUser u

/-- `activeChatroomId` is `string | null`. -/
def jsOfOptStr : Option String → JsValue
  | none => .null
  | some s => .str s

/-- The live runtime value of a message as the store holds it: a `Date`
object in `timestamp`, the `imageUrl` property present only when set. -/
def jsOfMessage (m : Message) : JsValue :=
  .obj ([("id", .str m.id), ("content", .str m.content),
         ("sender", jsOfSender m.sender), ("timestamp", .date m.timestamp)]
    ++ match m.imageUrl with
       | none => []
       | some u => [("imageUrl", .str u)])

/-- The live runtime value of a chatroom: `Date` objects in `createdAt`
and (when set) `lastMessage`. -/
def jsOfChatroom (r : Chatroom) : JsValue :=
  .obj ([("id", .str r.id), ("title", .str r.title),
         ("messages", .arr (r.messages.map jsOfMessage)),
         ("createdAt", .date r.createdAt)]
    ++ match r.lastMessage with
       | none => []
       | some d => [("lastMessage", .date d)])

/-- The value the persist middleware hands to `setItem`:
`{ state: partialized-state, version }`. -/
def persistValue (ps : PersistedState) : JsValue :=
  .obj [("state", .obj [
      ("user", jsOfOptUser ps.user),
      ("chatrooms", .arr (ps.chatrooms.map jsOfChatroom)),
      ("activeChatroomId", jsOfOptStr ps.activeChatroomId),
      ("theme", jsOfTheme ps.theme)]),
    ("version", .num 0)]

/-- What a chatroom reads back as: identical to the live value except
that an absent `lastMessage` comes back as an explicit `undefined`
property (the revival always assigns the key).  All timestamp fields are
again `Date` values holding the original milliseconds. -/
def revivedRoom (r : Chatroom) : JsValue :=
  .obj ([("id", .str r.id), ("title", .str r.title),
         ("messages", .arr (r.messages.map jsOfMessage)),
         ("createdAt", .date r.createdAt)]
    ++ match r.lastMessage with
       | none => [("lastMessage", JsValue.undef)]
       | some d => [("lastMessage", .date d)])

/-- What the whole persisted value reads back as. -/
def revivedPersistValue (ps : PersistedState) : JsValue :=
  .obj [("state", .obj [
      ("user", jsOfOptUser ps.user),
      ("chatrooms", .arr (ps.chatrooms.map revivedRoom)),
      ("activeChatroomId", jsOfOptStr ps.activeChatroomId),
      ("theme", jsOfTheme ps.theme)]),
    ("version", .num 0)]

theorem natStr_ne_empty (n : Nat) : natStr n ≠ "" := by
  unfold natStr
  by_cases h : n = 0
  · rw [if_pos h]
    decide
  · rw [if_neg h]
    intro hc
    have hdata : ((Nat.digits 10 n).map digitChar).reverse = [] :=
      congrArg String.data hc
    have : Nat.digits 10 n = [] := by
      have := List.reverse_eq_nil_iff.mp hdata
      simpa using this
    exact h (Nat.digits_eq_nil_iff_eq_zero.mp this)

theorem intStr_ne_empty (n : Int) : intStr n ≠ "" := by
  unfold intStr
  by_cases h : n < 0
  · rw [if_pos h]
    intro hc
    have := congrArg String.data hc
    simp at this
  · rw [if_neg h]
    exact natStr_ne_empty n.toNat

/-- A stringified live message revives to exactly the live message:
its `timestamp` comes back as the original `Date`. -/
theorem reviveMsg_stringify (m : Message) :
    reviveMsg (stringifyJs (jsOfMessage m)) = jsOfMessage m := by
  cases hs : m.sender <;> cases hu : m.imageUrl <;>
    simp [jsOfMessage, jsOfSender, hs, hu, stringifyJs, stringifyJsFields,
      stringifyJsList, reviveMsg, jsOfJsonFields, jsOfJson, newDateOfJson,
      setJsField, List.lookup, decodeIntStr_intStr]

/-- A stringified live message list revives element-wise. -/
theorem reviveMsg_stringify_map (msgs : List Message) :
    (stringifyJsList (msgs.map jsOfMessage)).map reviveMsg
      = msgs.map jsOfMessage := by
  induction msgs with
  | nil => rfl
  | cons m rest ih =>
      simp only [List.map_cons, stringifyJsList, List.map]
      rw [reviveMsg_stringify, ih]

/-- A stringified live chatroom revives to `revivedRoom`: `createdAt`
and a set `lastMessage` come back as the original `Date`s, an unset
`lastMessage` as `undefined`. -/
theorem reviveRoom_stringify (r : Chatroom) :
    reviveRoom (stringifyJs (jsOfChatroom r)) = some (revivedRoom r) := by
  cases hl : r.lastMessage <;>
    simp [jsOfChatroom, hl, stringifyJs, stringifyJsFields, stringifyJsList,
      reviveRoom, reviveMessages, jsOfJsonFields, jsOfJson, newDateOfJson,
      setJsField, List.lookup, decodeIntStr_intStr, truthy, intStr_ne_empty,
      reviveMsg_stringify_map, revivedRoom]

/-- A stringified chatrooms array revives element-wise. -/
theorem reviveRooms_stringify (rooms : List Chatroom) :
    reviveRooms (stringifyJsList (rooms.map jsOfChatroom))
      = some (rooms.map revivedRoom) := by
  induction rooms with
  | nil => rfl
  | cons r rest ih =>
      simp only [List.map_cons, stringifyJsList, reviveRooms,
        reviveRoom_stringify, ih]

/-- Stringifying a date-free runtime user value and reading it back is
the identity. -/
theorem jsOfJson_stringify_user (u : Option User) :
    jsOfJson (stringifyJs (jsOfOptUser u)) = jsOfOptUser u := by
  cases u <;>
    simp [jsOfOptUser, jsOfUser, stringifyJs, stringifyJsFields, jsOfJson,
      jsOfJsonFields]

/-- Likewise for the active chatroom id. -/
theorem jsOfJson_stringify_optStr (s : Option String) :
    jsOfJson (stringifyJs (jsOfOptStr s)) = jsOfOptStr s := by
  cases s <;> simp [jsOfOptStr, stringifyJs, jsOfJson]

/-- Likewise for the theme. -/
theorem jsOfJson_stringify_theme (t : Theme) :
    jsOfJson (stringifyJs (jsOfTheme t)) = jsOfTheme t := by
  cases t <;> simp [jsOfTheme, stringifyJs, jsOfJson]

/-- C5: writing the persisted subset with `setItem` and reading it back
with `getItem` yields the value with every chatroom revived: `createdAt`,
a set `lastMessage`, and every message `timestamp` are `Date` values
holding the original milliseconds (not the stored text). -/
theorem persisted_dates_roundtrip (ls : LocalStorage) (name : String)
    (ps : PersistedState) :
    storageGetItem (storageSetItem ls name (persistValue ps)) name
      = some (revivedPersistValue ps) ∧
    (∀ r : Chatroom,
      (revivedRoom r).getField "createdAt" = some (.date r.createdAt)) ∧
    (∀ (r : Chatroom) (d : Int), r.lastMessage = some d →
      (revivedRoom r).getField "lastMessage" = some (.date d)) ∧
    (∀ m : Message,
      (jsOfMessage m).getField "timestamp" = some (.date m.timestamp)) := by
  refine ⟨?_, ?_, ?_, ?_⟩
  · show storageGetItem (storageSetItem ls name (persistValue ps)) name = _
    unfold storageGetItem storageSetItem
    rw [if_pos rfl]
    obtain ⟨u, rooms, aid, th⟩ := ps
    cases u <;> cases aid <;> cases th <;>
      simp [persistValue, revivedPersistValue, jsOfOptUser, jsOfUser,
        jsOfOptStr, jsOfTheme, stringifyJs, stringifyJsFields,
        stringifyJsList, reviveParsed, List.lookup, jsOfJsonFields, jsOfJson,
        setJsField, reviveRooms_stringify]
  · intro r
    cases hl : r.lastMessage <;>
      simp [revivedRoom, hl, JsValue.getField, List.lookup]
  · intro r d hl
    simp [revivedRoom, hl, JsValue.getField, List.lookup]
  · intro m
    cases hu : m.imageUrl <;>
      simp [jsOfMessage, hu, JsValue.getField, List.lookup]

/-- C5 witness: a one-room, one-message persisted state with a set
`lastMessage`. -/
theorem persisted_dates_roundtrip_witness :
    (let roomC : Chatroom :=
      { id := "c1", title := "T", createdAt := 11, lastMessage := some 12
        messages := [{ id := "m1", content := "hi", sender := .user,
                       timestamp := 12 }] }
     let psW : PersistedState :=
      { user := none, chatrooms := [roomC], activeChatroomId := some "c1"
        theme := .dark }
     storageGetItem (storageSetItem (fun _ => none) "gemini-app-storage"
        (persistValue psW)) "gemini-app-storage"
       = some (revivedPersistValue psW) ∧
     (∀ r : Chatroom,
       (revivedRoom r).getField "createdAt" = some (.date r.createdAt)) ∧
     (∀ (r : Chatroom) (d : Int), r.lastMessage = some d →
       (revivedRoom r).getField "lastMessage" = some (.date d)) ∧
     (∀ m : Message,
       (jsOfMessage m).getField "timestamp" = some (.date m.timestamp))) :=
  persisted_dates_roundtrip (fun _ => none) "gemini-app-storage"
    { user := none
      chatrooms := [{ id := "c1", title := "T", createdAt := 11,
                      lastMessage := some 12,
                      messages := [{ id := "m1", content := "hi",
                                     sender := .user, timestamp := 12 }] }]
      activeChatroomId := some "c1"
      theme := .dark }

/-- C6: an absent stored blob, and a stored blob `JSON.parse` rejects,
both read back as `null` (no persisted prior state); `getItem` is a
total function of the embedding, so it never throws. -/
theorem storage_failures_yield_null (ls : LocalStorage) (name : String)
    (h : ls name = none ∨ ∃ text, ls name = some (.malformed text)) :
    storageGetItem ls name = none := by
  rcases h with h | ⟨text, h⟩ <;> simp [storageGetItem, h]

/-- C6 witness: a blob that is not valid JSON reads back as `null`. -/
theorem storage_failures_yield_null_witness :
    ((fun _ => some (Blob.malformed "not json")) "gemini-app-storage"
        = (none : Option Blob) ∨
      ∃ text, (fun _ => some (Blob.malformed "not json")) "gemini-app-storage"
        = some (Blob.malformed text)) ∧
    storageGetItem (fun _ => some (Blob.malformed "not json"))
      "gemini-app-storage" = none :=
  ⟨Or.inr ⟨"not json", rfl⟩,
   storage_failures_yield_null (fun _ => some (Blob.malformed "not json"))
     "gemini-app-storage" (Or.inr ⟨"not json", rfl⟩)⟩

end GeminiClone
